import Mathlib

/-!
Verification of the NuttX procfs interrupt monitor (`sched/irq/irq_procfs.c`).

The C sources are shallowly embedded as executable Lean definitions.
Machine integers are modelled as `Nat` with explicit reductions modulo
`2^32` / `2^64` exactly where the C code performs a narrowing cast or a
fixed-width arithmetic operation, for the ILP32 target the file targets
(`unsigned long` and `unsigned int` are 32 bits, the per-record counters
are `uint64_t` under `CONFIG_HAVE_LONG_LONG`).

Two collaborators of the driver live outside the provided sources and are
modelled from the specification text: the procfs skip/copy primitive
(`procfs_memcpy`) and the registry traversal (`irq_foreach`).
-/

namespace IrqProcfs

/-- `2^32`, the modulus of `unsigned long` / `unsigned int` on the ILP32 target. -/
def UINT32_MOD : Nat := 4294967296

/-- `2^64`, the modulus of `uint64_t`. -/
def UINT64_MOD : Nat := 18446744073709551616

/-- `ULONG_MAX` on the ILP32 target. -/
def ULONG_MAX : Nat := UINT32_MOD - 1

/-- One per-interrupt record (`struct irq_info_s`): handler address, handler
argument, cumulative invocation count, cumulative busy time (perf ticks) and
window-start timestamp (system ticks). -/
structure irq_info_s where
  handler : Nat
  arg : Nat
  count : Nat
  time : Nat
  start : Nat
deriving DecidableEq

/-- The per-open-file state (`struct irq_file_s`).  The user buffer pointer is
modelled by `out`, the bytes copied to the caller so far in the current read. -/
structure irq_file_s where
  remaining : Nat
  ncopied : Nat
  offset : Nat
  out : List Char
deriving DecidableEq

/-- Decimal digits of `n` (what `%u` / `%lu` renders before padding). -/
def fmt_dec (n : Nat) : List Char := Nat.toDigits 10 n

/-- Lowercase hexadecimal digits of `n` (what `%lx` renders before padding). -/
def fmt_hex (n : Nat) : List Char := Nat.toDigits 16 n

/-- Pad `s` on the left with `c` up to width `w` (printf field padding). -/
def fmt_pad (c : Char) (w : Nat) (s : List Char) : List Char :=
  List.replicate (w - s.length) c ++ s

/-- printf `%Wlu`: decimal, right-aligned in a field of width `w`. -/
def fmt_u (w n : Nat) : List Char := fmt_pad ' ' w (fmt_dec n)

/-- printf `%0Wlu`: decimal, zero-padded to width `w`. -/
def fmt_z (w n : Nat) : List Char := fmt_pad '0' w (fmt_dec n)

/-- printf `%08lx`: lowercase hex, zero-padded to width 8. -/
def fmt_x8 (n : Nat) : List Char := fmt_pad '0' 8 (fmt_hex n)

/-- `IRQ_FMT`: `"%3u %08lx %08lx %10lu %4lu.%03lu %4lu\n"` applied to the seven
arguments of the `snprintf` call in `irq_callback`. -/
def irq_fmt (irq handler argp count intpart fracpart micros : Nat) : List Char :=
  fmt_u 3 irq ++ [' '] ++ fmt_x8 handler ++ [' '] ++ fmt_x8 argp ++ [' '] ++
  fmt_u 10 count ++ [' '] ++ fmt_u 4 intpart ++ ['.'] ++ fmt_z 3 fracpart ++
  [' '] ++ fmt_u 4 micros ++ ['\n']

/-- `HDR_FMT`, the header line. -/
def HDR_FMT : List Char := "IRQ HANDLER  ARGUMENT    COUNT    RATE    TIME\n".toList

/-- Modelled from the spec: the skip/copy primitive (`procfs_memcpy` of the
external procfs utility layer, whose source is not part of this repository).
Given a candidate line of length `srclen` and the current `offset`: if
`offset ≥ srclen` the whole line lies before the already-delivered prefix and
is discarded, decrementing the offset; otherwise the tail of the line starting
at `offset` is copied, bounded by the destination capacity `destlen`, and the
offset becomes zero.  Returns the copied bytes and the new offset. -/
def procfs_memcpy (src : List Char) (srclen destlen offset : Nat) :
    List Char × Nat :=
  if srclen ≤ offset then ([], offset - srclen)
  else (((src.take srclen).drop offset).take destlen, 0)

/-- The elapsed measurement window computed by `irq_callback`:
`elapsed = now - copy.start`, then `elapsed = elapsed ? elapsed : 1`. -/
def irq_elapsed (now start : Nat) : Nat :=
  let e := now - start
  if e = 0 then 1 else e

/-- The rate computation of `irq_callback` (lines 211-223 of the C source):
`intpart = (unsigned int)((copy.count * TICK_PER_SEC) / elapsed)`, saturated to
`9999.999` when the (already 32-bit-truncated) integer part reaches 10000,
otherwise the 3-digit fractional part.  `count` is `uint64_t`, so the product
is reduced modulo `2^64`; the casts to `unsigned int` reduce modulo `2^32`. -/
def irq_ratefields (tps elapsed : Nat) (copy : irq_info_s) : Nat × Nat :=
  let intpart := (copy.count * tps % UINT64_MOD / elapsed) % UINT32_MOD
  if 10000 ≤ intpart then (9999, 999)
  else
    let intcount := intpart * elapsed
    let fracpart :=
      ((copy.count * tps % UINT64_MOD - intcount) * 1000 % UINT64_MOD / elapsed)
        % UINT32_MOD
    (intpart, fracpart)

/-- The count clamp of `irq_callback` (lines 227-234): a count wider than
`unsigned long` is displayed as `ULONG_MAX`. -/
def irq_countfield (c : Nat) : Nat :=
  if ULONG_MAX < c then ULONG_MAX else c

/-- The full line `irq_callback` renders for a snapshot with nonzero count.
`t2n` models `up_perf_convert`: it maps the accumulated busy time to the
`tv_nsec` field of the resulting `struct timespec`; the line shows
`tv_nsec / 1000` microseconds.  The pointer arguments go through
`(unsigned long)(uintptr_t)` casts, reducing modulo `2^32`. -/
def irq_render (tps now : Nat) (t2n : Nat → Nat) (irq : Nat)
    (copy : irq_info_s) : List Char :=
  let elapsed := irq_elapsed now copy.start
  let rf := irq_ratefields tps elapsed copy
  irq_fmt (irq % UINT32_MOD) (copy.handler % UINT32_MOD) (copy.arg % UINT32_MOD)
    (irq_countfield copy.count) rf.1 rf.2 (t2n copy.time / 1000)

/-- `irq_callback`: snapshot-and-reset the record, skip it when the snapshot
count is zero, otherwise render its line and pass it through the skip/copy
primitive; request an early stop (nonzero result) exactly when the user
buffer is exhausted afterwards. -/
def irq_callback (tps now : Nat) (t2n : Nat → Nat) (irq : Nat)
    (info : irq_info_s) (irqfile : irq_file_s) :
    irq_info_s × irq_file_s × Nat :=
  let copy := info
  let info := { info with start := now, count := 0, time := 0 }
  if copy.count = 0 then (info, irqfile, 0)
  else
    let line := irq_render tps now t2n irq copy
    let linesize := line.length
    let cp := procfs_memcpy line linesize irqfile.remaining irqfile.offset
    let copysize := cp.1.length
    let irqfile := { irqfile with
      ncopied := irqfile.ncopied + copysize
      out := irqfile.out ++ cp.1
      remaining := irqfile.remaining - copysize
      offset := cp.2 }
    if 0 < irqfile.remaining then (info, irqfile, 0) else (info, irqfile, 1)

/-- Modelled from the spec: the registry traversal (`irq_foreach`, whose source
is not part of this repository).  It visits the records in enumeration order,
threading the per-record references and the driver state through the visitor,
and stops early as soon as the visitor returns a nonzero value; unvisited
records are untouched. -/
def irq_foreach
    (f : Nat → irq_info_s → irq_file_s → irq_info_s × irq_file_s × Nat) :
    List (Nat × irq_info_s) → irq_file_s →
      List (Nat × irq_info_s) × irq_file_s
  | [], st => ([], st)
  | (i, r) :: rest, st =>
    let v := f i r st
    if v.2.2 ≠ 0 then ((i, v.1) :: rest, v.2.1)
    else
      let w := irq_foreach f rest v.2.1
      ((i, v.1) :: w.1, w.2)

/-- `irq_read`: bind the session state to the caller's position and buffer,
deliver the header through the skip/copy primitive, traverse the registry with
`irq_callback`, then advance the file position by the number of bytes written
and return them.  Result: (bytes written, new file position, new registry). -/
def irq_read (tps now : Nat) (t2n : Nat → Nat)
    (regs : List (Nat × irq_info_s)) (f_pos buflen : Nat) :
    List Char × Nat × List (Nat × irq_info_s) :=
  let irqfile : irq_file_s :=
    { remaining := buflen, ncopied := 0, offset := f_pos, out := [] }
  let linesize := HDR_FMT.length
  let cp := procfs_memcpy HDR_FMT linesize irqfile.remaining irqfile.offset
  let irqfile := { irqfile with
    ncopied := cp.1.length
    out := cp.1
    remaining := irqfile.remaining - cp.1.length
    offset := cp.2 }
  let res := irq_foreach (irq_callback tps now t2n) regs irqfile
  (res.2.out, f_pos + res.2.ncopied, res.1)

/-- Error conditions returned by the driver (`-EACCES`, `-ENOMEM`). -/
inductive Errno
  | EACCES
  | ENOMEM
deriving DecidableEq

/-- NuttX `O_RDONLY` (a real bit, unlike POSIX). -/
def O_RDONLY : Nat := 1

/-- NuttX `O_WRONLY`. -/
def O_WRONLY : Nat := 2

/-- The zero-filled session `kmm_zalloc` produces on a successful open. -/
def zeroed_irq_file : irq_file_s :=
  { remaining := 0, ncopied := 0, offset := 0, out := [] }

/-- `irq_open`: reject any access mode that requests write or omits read with
`EACCES` before anything is allocated; otherwise allocate a zeroed session
(`allocOk` models whether `kmm_zalloc` succeeds).  The second component counts
the heap blocks the call leaves allocated. -/
def irq_open (oflags : Nat) (allocOk : Bool) : Except Errno irq_file_s × Nat :=
  if oflags &&& O_WRONLY ≠ 0 ∨ oflags &&& O_RDONLY = 0 then
    (.error .EACCES, 0)
  else if allocOk then (.ok zeroed_irq_file, 1)
  else (.error .ENOMEM, 0)

/-- `irq_dup`: allocate a fresh session (`allocOk` models `kmm_malloc`) and
`memcpy` every field of the source session into it. -/
def irq_dup (oldattr : irq_file_s) (allocOk : Bool) : Except Errno irq_file_s :=
  if allocOk then .ok oldattr else .error .ENOMEM

/-- One open handle as the VFS sees it: its file position plus the private
session attributes. -/
structure FileHandle where
  f_pos : Nat
  attr : irq_file_s
deriving DecidableEq

/-- Two handles (e.g. produced by `irq_dup`) over the one shared registry. -/
structure TwoHandles where
  ha : FileHandle
  hb : FileHandle
  regs : List (Nat × irq_info_s)

/-- A read issued on handle `a`: it runs `irq_read` against the shared
registry at `a`'s file position, advancing only `a`'s position. -/
def read_on_a (tps now : Nat) (t2n : Nat → Nat) (buflen : Nat)
    (s : TwoHandles) : List Char × TwoHandles :=
  let r := irq_read tps now t2n s.regs s.ha.f_pos buflen
  (r.1, { s with ha := { s.ha with f_pos := r.2.1 }, regs := r.2.2 })

/-- A read issued on handle `b`, symmetric to `read_on_a`. -/
def read_on_b (tps now : Nat) (t2n : Nat → Nat) (buflen : Nat)
    (s : TwoHandles) : List Char × TwoHandles :=
  let r := irq_read tps now t2n s.regs s.hb.f_pos buflen
  (r.1, { s with hb := { s.hb with f_pos := r.2.1 }, regs := r.2.2 })

/-- The record-line portion of the report a read renders from registry state
`regs`: one line per record with nonzero count, in enumeration order. -/
def irq_lines (tps now : Nat) (t2n : Nat → Nat) :
    List (Nat × irq_info_s) → List Char
  | [] => []
  | (i, r) :: rest =>
    (if r.count = 0 then [] else irq_render tps now t2n i r) ++
      irq_lines tps now t2n rest

/-- The full report a read renders from registry state `regs`. -/
def irq_report (tps now : Nat) (t2n : Nat → Nat)
    (regs : List (Nat × irq_info_s)) : List Char :=
  HDR_FMT ++ irq_lines tps now t2n regs

/-- The concatenation of the outputs of a sequence of reads with capacities
`caps`, each started at the file position produced by the previous read, all
observing registry snapshot state `regs`. -/
def read_seq (tps now : Nat) (t2n : Nat → Nat)
    (regs : List (Nat × irq_info_s)) : Nat → List Nat → List Char
  | _, [] => []
  | pos, c :: cs =>
    let r := irq_read tps now t2n regs pos c
    r.1 ++ read_seq tps now t2n regs r.2.1 cs

/-! ## Helper lemmas: the skip/copy slice algebra -/

theorem take_append_sub (a b : List Char) (n : Nat) :
    (a ++ b).take n = a.take n ++ b.take (n - (a.take n).length) := by
  induction a generalizing n with
  | nil => simp
  | cons x a ih =>
    cases n with
    | zero => simp
    | succ n => simp [ih n]

theorem drop_append_sub (a b : List Char) (n : Nat) :
    (a ++ b).drop n = a.drop n ++ b.drop (n - (a.take n).length) := by
  induction a generalizing n with
  | nil => simp
  | cons x a ih =>
    cases n with
    | zero => simp
    | succ n => simp [ih n]

theorem slice_step (c ls : List Char) (off rem : Nat) :
    ((c ++ ls).drop off).take rem
      = (c.drop off).take rem
        ++ (ls.drop (off - (c.take off).length)).take
             (rem - ((c.drop off).take rem).length) := by
  rw [drop_append_sub, take_append_sub]

theorem take_chunk (l : List Char) (c s : Nat) :
    l.take c ++ (l.drop ((l.take c).length)).take s = l.take (c + s) := by
  induction l generalizing c with
  | nil => simp
  | cons x l ih =>
    cases c with
    | zero => simp
    | succ c =>
      have h := ih c
      simp [List.length_take] at h
      simp [Nat.succ_add, h]

theorem take_of_le (l : List Char) (n : Nat) (h : l.length ≤ n) :
    l.take n = l := by
  induction l generalizing n with
  | nil => simp
  | cons x l ih =>
    cases n with
    | zero => simp at h
    | succ n => simp at h; simp [ih n h]

/-- `procfs_memcpy` applied to a line and its true length is the drop/take
slice of the line, with the offset decremented by the skipped length. -/
theorem procfs_memcpy_eq (s : List Char) (d off : Nat) :
    procfs_memcpy s s.length d off
      = ((s.drop off).take d, off - (s.take off).length) := by
  unfold procfs_memcpy
  by_cases h : s.length ≤ off
  · rw [if_pos h]
    have h1 : s.drop off = [] := by
      apply List.drop_eq_nil_of_le h
    have h2 : s.take off = s := take_of_le s off h
    simp [h1, h2]
  · rw [if_neg h]
    have h2 : (s.take off).length = off := by
      simp [List.length_take]
      omega
    simp [List.take_length, h2]

/-- `irq_callback` on a record with zero snapshot count: the record is still
reset, the session state is untouched, and the traversal continues. -/
theorem irq_callback_skip (tps now : Nat) (t2n : Nat → Nat) (irq : Nat)
    (info : irq_info_s) (st : irq_file_s) (h : info.count = 0) :
    irq_callback tps now t2n irq info st
      = ({ info with start := now, count := 0, time := 0 }, st, 0) := by
  simp [irq_callback, h]

/-- `irq_callback` on a record with nonzero snapshot count: the record is
reset, the rendered line goes through the skip/copy primitive, and the
traversal is stopped exactly when the remaining capacity is exhausted. -/
theorem irq_callback_copy (tps now : Nat) (t2n : Nat → Nat) (irq : Nat)
    (info : irq_info_s) (rem n off : Nat) (o : List Char)
    (h : info.count ≠ 0) :
    irq_callback tps now t2n irq info ⟨rem, n, off, o⟩
      = ({ info with start := now, count := 0, time := 0 },
         ⟨rem - (((irq_render tps now t2n irq info).drop off).take rem).length,
          n + (((irq_render tps now t2n irq info).drop off).take rem).length,
          off - ((irq_render tps now t2n irq info).take off).length,
          o ++ ((irq_render tps now t2n irq info).drop off).take rem⟩,
         if 0 < rem - (((irq_render tps now t2n irq info).drop off).take
             rem).length then 0 else 1) := by
  simp only [irq_callback, if_neg h, procfs_memcpy_eq]
  split <;> rfl


theorem irq_foreach_slice (tps now : Nat) (t2n : Nat → Nat) :
    ∀ (regs : List (Nat × irq_info_s)) (rem n off : Nat) (o : List Char),
      (irq_foreach (irq_callback tps now t2n) regs ⟨rem, n, off, o⟩).2.out
          = o ++ ((irq_lines tps now t2n regs).drop off).take rem
      ∧ (irq_foreach (irq_callback tps now t2n) regs ⟨rem, n, off, o⟩).2.ncopied
          = n + (((irq_lines tps now t2n regs).drop off).take rem).length
      ∧ (irq_foreach (irq_callback tps now t2n) regs
            ⟨rem, n, off, o⟩).2.remaining
          = rem - (((irq_lines tps now t2n regs).drop off).take rem).length
  | [], rem, n, off, o => by
    simp [irq_foreach, irq_lines]
  | (i, r) :: rest, rem, n, off, o => by
    by_cases hr : r.count = 0
    · have hcb := irq_callback_skip tps now t2n i r ⟨rem, n, off, o⟩ hr
      have ih := irq_foreach_slice tps now t2n rest rem n off o
      simp only [irq_foreach, hcb, irq_lines, hr, if_true, List.nil_append]
      simpa using ih
    · have hcb := irq_callback_copy tps now t2n i r rem n off o hr
      have hstep := slice_step (irq_render tps now t2n i r)
        (irq_lines tps now t2n rest) off rem
      by_cases h0 : 0 < rem -
          (((irq_render tps now t2n i r).drop off).take rem).length
      · obtain ⟨ih1, ih2, ih3⟩ := irq_foreach_slice tps now t2n rest
          (rem - (((irq_render tps now t2n i r).drop off).take rem).length)
          (n + (((irq_render tps now t2n i r).drop off).take rem).length)
          (off - ((irq_render tps now t2n i r).take off).length)
          (o ++ ((irq_render tps now t2n i r).drop off).take rem)
        simp only [irq_foreach, hcb, if_pos h0, irq_lines, hr, if_false,
          ne_eq, not_true_eq_false]
        rw [hstep]
        refine ⟨?_, ?_, ?_⟩
        · rw [ih1, List.append_assoc]
        · rw [ih2, List.length_append]; omega
        · rw [ih3, List.length_append]; omega
      · have hz : rem -
            (((irq_render tps now t2n i r).drop off).take rem).length = 0 := by
          omega
        simp only [irq_foreach, hcb, if_neg h0, irq_lines, hr, if_false,
          ne_eq, not_false_eq_true, if_pos (show (1 : Nat) ≠ 0 by simp)]
        rw [hstep, hz]
        refine ⟨?_, ?_, ?_⟩
        · simp
        · simp
        · simp only [List.length_take, List.length_drop] at hz ⊢
          simp
          omega

theorem irq_read_slice (tps now : Nat) (t2n : Nat → Nat)
    (regs : List (Nat × irq_info_s)) (pos buflen : Nat) :
    (irq_read tps now t2n regs pos buflen).1
        = ((irq_report tps now t2n regs).drop pos).take buflen
    ∧ (irq_read tps now t2n regs pos buflen).2.1
        = pos + (((irq_report tps now t2n regs).drop pos).take buflen).length := by
  obtain ⟨h1, h2, h3⟩ := irq_foreach_slice tps now t2n regs
    (buflen - ((HDR_FMT.drop pos).take buflen).length)
    (((HDR_FMT.drop pos).take buflen).length)
    (pos - (HDR_FMT.take pos).length)
    ((HDR_FMT.drop pos).take buflen)
  have hstep := slice_step HDR_FMT (irq_lines tps now t2n regs) pos buflen
  simp only [irq_read, procfs_memcpy_eq, irq_report]
  rw [hstep]
  constructor
  · rw [h1]
  · rw [h2, List.length_append]

theorem read_seq_slice (tps now : Nat) (t2n : Nat → Nat)
    (regs : List (Nat × irq_info_s)) :
    ∀ (caps : List Nat) (pos : Nat),
      read_seq tps now t2n regs pos caps
        = ((irq_report tps now t2n regs).drop pos).take caps.sum
  | [], pos => by simp [read_seq]
  | c :: cs, pos => by
    have h := irq_read_slice tps now t2n regs pos c
    simp only [read_seq, h.1, h.2, List.sum_cons]
    rw [read_seq_slice tps now t2n regs cs _]
    rw [← List.drop_drop]
    exact take_chunk _ c cs.sum

theorem irq_lines_join (tps now : Nat) (t2n : Nat → Nat) :
    ∀ regs : List (Nat × irq_info_s),
      irq_lines tps now t2n regs
        = ((regs.filter fun p => p.2.count != 0).map
            fun p => irq_render tps now t2n p.1 p.2).flatten
  | [] => by simp [irq_lines]
  | (i, r) :: rest => by
    by_cases hr : r.count = 0 <;>
      simp [irq_lines, hr, irq_lines_join tps now t2n rest]

theorem irq_callback_fst (tps now : Nat) (t2n : Nat → Nat) (irq : Nat)
    (info : irq_info_s) (st : irq_file_s) :
    (irq_callback tps now t2n irq info st).1
      = { info with start := now, count := 0, time := 0 } := by
  by_cases h : info.count = 0
  · rw [irq_callback_skip tps now t2n irq info st h]
  · obtain ⟨rem, n, off, o⟩ := st
    rw [irq_callback_copy tps now t2n irq info rem n off o h]

/-- C3: every visit of `irq_callback` resets the record unconditionally —
window-start becomes `now`, count and busy time become zero, whether or not
the snapshot count was zero — and the bytes it appends to the user buffer are
rendered from the pre-reset snapshot (nothing for a zero snapshot count). -/
theorem irq_callback_unconditional_reset (tps now : Nat) (t2n : Nat → Nat)
    (irq : Nat) (info : irq_info_s) (st : irq_file_s) :
    (irq_callback tps now t2n irq info st).1
        = { info with start := now, count := 0, time := 0 }
    ∧ (irq_callback tps now t2n irq info st).2.1.out
        = st.out ++ (if info.count = 0 then [] else
            ((irq_render tps now t2n irq info).drop st.offset).take
              st.remaining) := by
  refine ⟨irq_callback_fst tps now t2n irq info st, ?_⟩
  obtain ⟨rem, n, off, o⟩ := st
  by_cases h : info.count = 0
  · rw [irq_callback_skip tps now t2n irq info _ h]
    simp [h]
  · rw [irq_callback_copy tps now t2n irq info rem n off o h]
    simp only [if_neg h]

/-- C8: the elapsed window used as rate divisor is now minus the snapshot
window-start, floored to one tick, hence strictly positive. -/
theorem irq_elapsed_positive_floor (now start : Nat) :
    irq_elapsed now start = max (now - start) 1
    ∧ 0 < irq_elapsed now start := by
  unfold irq_elapsed
  by_cases h : now - start = 0
  · simp [h]
  · simp only [if_neg h]
    omega

/-- C6: after a candidate line went through the skip/copy step, the traversal
is told to stop exactly when the remaining capacity reached zero, and a read
advances the caller file position by exactly the bytes it returns. -/
theorem irq_callback_stop_iff_full (tps now : Nat) (t2n : Nat → Nat)
    (irq : Nat) (info : irq_info_s) (st : irq_file_s)
    (regs : List (Nat × irq_info_s)) (pos buflen : Nat)
    (h : info.count ≠ 0) :
    ((irq_callback tps now t2n irq info st).2.2 ≠ 0
        ↔ (irq_callback tps now t2n irq info st).2.1.remaining = 0)
    ∧ (irq_read tps now t2n regs pos buflen).2.1
        = pos + (irq_read tps now t2n regs pos buflen).1.length := by
  constructor
  · obtain ⟨rem, n, off, o⟩ := st
    rw [irq_callback_copy tps now t2n irq info rem n off o h]
    by_cases h0 : 0 < rem -
        (((irq_render tps now t2n irq info).drop off).take rem).length
    · simp [if_pos h0]
      omega
    · simp [if_neg h0]
      omega
  · have hs := irq_read_slice tps now t2n regs pos buflen
    rw [hs.2, hs.1]

theorem irq_callback_stop_iff_full_witness :
    ((irq_callback 100 100 (fun _ => 250000) 5
        (⟨4096, 0, 120, 7, 0⟩ : irq_info_s) ⟨94, 0, 0, []⟩).2.2 ≠ 0
      ↔ (irq_callback 100 100 (fun _ => 250000) 5
        (⟨4096, 0, 120, 7, 0⟩ : irq_info_s) ⟨94, 0, 0, []⟩).2.1.remaining = 0)
    ∧ (irq_read 100 100 (fun _ => 250000)
        [(5, (⟨4096, 0, 120, 7, 0⟩ : irq_info_s))] 0 94).2.1
      = 0 + (irq_read 100 100 (fun _ => 250000)
        [(5, (⟨4096, 0, 120, 7, 0⟩ : irq_info_s))] 0 94).1.length :=
  irq_callback_stop_iff_full 100 100 (fun _ => 250000) 5 ⟨4096, 0, 120, 7, 0⟩
    ⟨94, 0, 0, []⟩ [(5, ⟨4096, 0, 120, 7, 0⟩)] 0 94 (by decide)

/-- C10: even a read whose capacity is at most the header length (so it
delivers no record-line bytes) still visits and resets the first record of a
non-empty registry. -/
theorem irq_read_resets_first_record (tps now : Nat) (t2n : Nat → Nat)
    (i : Nat) (r : irq_info_s) (rest : List (Nat × irq_info_s)) (buflen : Nat)
    (h : buflen ≤ HDR_FMT.length) :
    (irq_read tps now t2n ((i, r) :: rest) 0 buflen).2.2.head?
        = some (i, { r with start := now, count := 0, time := 0 })
    ∧ (irq_read tps now t2n ((i, r) :: rest) 0 buflen).1
        = HDR_FMT.take buflen := by
  constructor
  · simp only [irq_read, procfs_memcpy_eq, irq_foreach]
    split <;> simp [irq_callback_fst]
  · have hlen : (HDR_FMT.take buflen).length = buflen := by
      rw [List.length_take]
      exact Nat.min_eq_left h
    rw [(irq_read_slice tps now t2n ((i, r) :: rest) 0 buflen).1,
      List.drop_zero, irq_report, take_append_sub, hlen, Nat.sub_self,
      List.take_zero, List.append_nil]

theorem irq_read_resets_first_record_witness :
    (10 : Nat) ≤ HDR_FMT.length
    ∧ ((irq_read 77 42 (fun _ => 9000)
          [(3, (⟨17, 2, 5, 6, 7⟩ : irq_info_s)), (4, ⟨0, 0, 1, 0, 0⟩)]
          0 10).2.2.head?
        = some (3, (⟨17, 2, 0, 0, 42⟩ : irq_info_s))
      ∧ (irq_read 77 42 (fun _ => 9000)
          [(3, (⟨17, 2, 5, 6, 7⟩ : irq_info_s)), (4, ⟨0, 0, 1, 0, 0⟩)]
          0 10).1 = HDR_FMT.take 10) :=
  ⟨by decide, irq_read_resets_first_record 77 42 (fun _ => 9000) 3
    ⟨17, 2, 5, 6, 7⟩ [(4, ⟨0, 0, 1, 0, 0⟩)] 10 (by decide)⟩

/-- C1 counterexample: two partial reads at the offsets produced by the prior
read, across which the set of records with nonzero snapshot count is
unchanged (the single record stays nonzero: 120 then 7), concatenate to a
byte sequence different from what one full-capacity read returns, because the
re-accumulated count renders different digits. -/
theorem chunked_read_counterexample :
    (([(5, (⟨134221824, 0, 120, 7, 0⟩ : irq_info_s))].map
        fun p => p.2.count != 0)
      = ([(5, (⟨134221824, 0, 7, 7, 100⟩ : irq_info_s))].map
        fun p => p.2.count != 0))
    ∧ (irq_read 100 100 (fun _ => 250000)
        [(5, ⟨134221824, 0, 120, 7, 0⟩)] 0 47).2.1 = 47
    ∧ (irq_report 100 100 (fun _ => 250000)
        [(5, ⟨134221824, 0, 120, 7, 0⟩)]).length = 94
    ∧ ((irq_read 100 100 (fun _ => 250000)
          [(5, ⟨134221824, 0, 120, 7, 0⟩)] 0 47).1
        ++ (irq_read 100 200 (fun _ => 250000)
          [(5, ⟨134221824, 0, 7, 7, 100⟩)] 47 147).1)
      ≠ (irq_read 100 100 (fun _ => 250000)
          [(5, ⟨134221824, 0, 120, 7, 0⟩)] 0 200).1 := by decide

/-- C1 amended: when every read of the sequence observes registry snapshot
state rendering the identical report (not merely the same nonzero set), the
concatenation of the outputs of repeated reads at the monotonically advancing
file offsets produced by each prior read equals the output of one single read
of sufficient capacity. -/
theorem irq_read_chunked_concat (tps now : Nat) (t2n : Nat → Nat)
    (regs : List (Nat × irq_info_s)) (caps : List Nat) (cap : Nat)
    (h1 : (irq_report tps now t2n regs).length ≤ caps.sum)
    (h2 : (irq_report tps now t2n regs).length ≤ cap) :
    read_seq tps now t2n regs 0 caps
      = (irq_read tps now t2n regs 0 cap).1 := by
  rw [read_seq_slice, (irq_read_slice tps now t2n regs 0 cap).1,
    List.drop_zero, take_of_le _ _ h1, take_of_le _ _ h2]

theorem irq_read_chunked_concat_witness :
    (irq_report 100 100 (fun _ => 250000)
        [(5, (⟨134221824, 0, 120, 7, 0⟩ : irq_info_s))]).length ≤ [50, 60].sum
    ∧ read_seq 100 100 (fun _ => 250000)
        [(5, (⟨134221824, 0, 120, 7, 0⟩ : irq_info_s))] 0 [50, 60]
      = (irq_read 100 100 (fun _ => 250000)
          [(5, (⟨134221824, 0, 120, 7, 0⟩ : irq_info_s))] 0 110).1 :=
  ⟨by decide, irq_read_chunked_concat 100 100 (fun _ => 250000)
    [(5, ⟨134221824, 0, 120, 7, 0⟩)] [50, 60] 110 (by decide) (by decide)⟩

/-- C2: the concrete scenario — one record, irq 5, handler 0x08001000,
argument 0, count 120 over a one-second window (100 ticks at 100 ticks per
second), 250 microseconds average service time — renders exactly the
documented line right after the header, and a read of exactly the header
length followed by a read of the remaining capacity reconstructs the exact
header-plus-line concatenation. -/
theorem irq_concrete_scenario :
    (irq_read 100 100 (fun _ => 250000)
        [(5, (⟨134221824, 0, 120, 7, 0⟩ : irq_info_s))] 0 94).1
      = HDR_FMT ++ "  5 08001000 00000000        120  120.000  250\n".toList
    ∧ (irq_read 100 100 (fun _ => 250000)
        [(5, (⟨134221824, 0, 120, 7, 0⟩ : irq_info_s))] 0 47).1 = HDR_FMT
    ∧ (irq_read 100 100 (fun _ => 250000)
        [(5, (⟨134221824, 0, 120, 7, 0⟩ : irq_info_s))] 0 47).2.1 = 47
    ∧ (irq_read 100 100 (fun _ => 250000)
          [(5, (⟨134221824, 0, 120, 7, 0⟩ : irq_info_s))] 0 47).1
        ++ (irq_read 100 100 (fun _ => 250000)
          [(5, (⟨134221824, 0, 120, 7, 0⟩ : irq_info_s))] 47 47).1
      = HDR_FMT ++ "  5 08001000 00000000        120  120.000  250\n".toList
    := by decide

/-- C4 counterexample: a record whose true rate integer part (4294967300)
exceeds 9999 is not rendered saturated: the cast to `unsigned int` wraps the
quotient to 4 before the saturation test, so the line shows `   4.000`. -/
theorem irq_rate_saturation_counterexample :
    9999 < 42949673 * 100 / irq_elapsed 1 0
    ∧ irq_ratefields 100 (irq_elapsed 1 0)
        (⟨0, 0, 42949673, 0, 0⟩ : irq_info_s) ≠ (9999, 999)
    ∧ irq_ratefields 100 (irq_elapsed 1 0)
        (⟨0, 0, 42949673, 0, 0⟩ : irq_info_s) = (4, 0)
    ∧ irq_render 100 1 (fun _ => 0) 5 (⟨0, 0, 42949673, 0, 0⟩ : irq_info_s)
      = "  5 00000000 00000000   42949673    4.000    0\n".toList := by decide

/-- C4 amended: the saturation applies to the rate integer part as the code
computes it — the 64-bit quotient truncated to 32 bits: whenever that value
reaches 10000 the rendered rate is exactly 9999.999; and a snapshot count
exceeding the displayable `ULONG_MAX` is clamped to `ULONG_MAX`, never
wrapped. -/
theorem irq_rate_saturation_clamp (tps elapsed c : Nat) (copy : irq_info_s)
    (h : 10000 ≤ copy.count * tps % UINT64_MOD / elapsed % UINT32_MOD)
    (h2 : ULONG_MAX < c) :
    irq_ratefields tps elapsed copy = (9999, 999)
    ∧ irq_countfield c = ULONG_MAX := by
  constructor
  · unfold irq_ratefields
    rw [if_pos h]
  · unfold irq_countfield
    rw [if_pos h2]

theorem irq_rate_saturation_clamp_witness :
    irq_ratefields 1 1 (⟨0, 0, 10000, 0, 0⟩ : irq_info_s) = (9999, 999)
    ∧ irq_countfield 4294967296 = ULONG_MAX :=
  irq_rate_saturation_clamp 1 1 4294967296 ⟨0, 0, 10000, 0, 0⟩
    (by decide) (by decide)

/-- C5: open fails with `EACCES` exactly when the access mode requests write
or omits read, leaving nothing allocated; with an acceptable mode it stores a
zeroed session when allocation succeeds and fails with `ENOMEM` leaving
nothing allocated when it does not. -/
theorem irq_open_access_control (oflags : Nat) (allocOk : Bool) :
    ((irq_open oflags allocOk).1 = .error .EACCES
        ↔ (oflags &&& O_WRONLY ≠ 0 ∨ oflags &&& O_RDONLY = 0))
    ∧ ((irq_open oflags allocOk).1 = .error .EACCES
        → (irq_open oflags allocOk).2 = 0)
    ∧ (¬(oflags &&& O_WRONLY ≠ 0 ∨ oflags &&& O_RDONLY = 0) →
        irq_open oflags allocOk
          = if allocOk then (.ok zeroed_irq_file, 1)
            else (.error .ENOMEM, 0)) := by
  by_cases hm : oflags &&& O_WRONLY ≠ 0 ∨ oflags &&& O_RDONLY = 0
  · refine ⟨⟨fun _ => hm, fun _ => ?_⟩, fun _ => ?_, fun hgood => absurd hm hgood⟩
    · simp [irq_open, hm]
    · simp [irq_open, hm]
  · cases allocOk
    · refine ⟨⟨fun hc => ?_, fun hc => absurd hc hm⟩, fun hc => ?_, fun _ => ?_⟩
      · simp [irq_open, hm] at hc
      · simp [irq_open, hm] at hc
      · simp [irq_open, hm]
    · refine ⟨⟨fun hc => ?_, fun hc => absurd hc hm⟩, fun hc => ?_, fun _ => ?_⟩
      · simp [irq_open, hm] at hc
      · simp [irq_open, hm] at hc
      · simp [irq_open, hm]

theorem irq_open_access_control_witness :
    ((irq_open 2 true).1 = .error .EACCES
    ∧ irq_open 1 true = (.ok zeroed_irq_file, 1))
    ∧ irq_open 1 false = (.error .ENOMEM, 0) :=
  ⟨⟨(irq_open_access_control 2 true).1.mpr (by decide),
    by simpa using (irq_open_access_control 1 true).2.2 (by decide)⟩,
    by simpa using (irq_open_access_control 1 false).2.2 (by decide)⟩

/-- C7: a full-capacity read at position zero delivers the header followed by
exactly one fixed-format line for every record whose snapshot count is
nonzero, in registry enumeration order; records with zero snapshot count
contribute no bytes. -/
theorem irq_read_renders_nonzero_lines (tps now : Nat) (t2n : Nat → Nat)
    (regs : List (Nat × irq_info_s)) (buflen : Nat)
    (h : (irq_report tps now t2n regs).length ≤ buflen) :
    (irq_read tps now t2n regs 0 buflen).1
      = HDR_FMT ++ ((regs.filter fun p => p.2.count != 0).map
          fun p => irq_render tps now t2n p.1 p.2).flatten := by
  rw [(irq_read_slice tps now t2n regs 0 buflen).1, List.drop_zero,
    take_of_le _ _ h, irq_report, irq_lines_join]

theorem irq_read_renders_nonzero_lines_witness :
    (irq_report 100 10 (fun _ => 1000)
        [(1, (⟨17, 3, 0, 0, 0⟩ : irq_info_s)), (2, ⟨4096, 0, 50, 9, 5⟩),
          (9, ⟨0, 0, 0, 0, 0⟩)]).length ≤ 300
    ∧ (irq_read 100 10 (fun _ => 1000)
        [(1, (⟨17, 3, 0, 0, 0⟩ : irq_info_s)), (2, ⟨4096, 0, 50, 9, 5⟩),
          (9, ⟨0, 0, 0, 0, 0⟩)] 0 300).1
      = HDR_FMT ++ (([(1, (⟨17, 3, 0, 0, 0⟩ : irq_info_s)),
          (2, ⟨4096, 0, 50, 9, 5⟩), (9, ⟨0, 0, 0, 0, 0⟩)].filter
            fun p => p.2.count != 0).map
          fun p => irq_render 100 10 (fun _ => 1000) p.1 p.2).flatten :=
  ⟨by decide, irq_read_renders_nonzero_lines 100 10 (fun _ => 1000)
    [(1, ⟨17, 3, 0, 0, 0⟩), (2, ⟨4096, 0, 50, 9, 5⟩), (9, ⟨0, 0, 0, 0, 0⟩)]
    300 (by decide)⟩

/-- C9: `irq_dup` copies every session field into the fresh session, and the
two handles are thereafter independent: a read on one advances only that
handle's file position, while its registry effects land in the shared record
set which the other handle's subsequent read observes. -/
theorem irq_dup_copies_and_independent (tps now : Nat) (t2n : Nat → Nat)
    (buflen blen2 : Nat) :
    (∀ attr : irq_file_s, irq_dup attr true = .ok attr)
    ∧ (∀ s : TwoHandles,
        (read_on_a tps now t2n buflen s).2.hb = s.hb
        ∧ (read_on_a tps now t2n buflen s).2.ha.f_pos
            = (irq_read tps now t2n s.regs s.ha.f_pos buflen).2.1
        ∧ (read_on_a tps now t2n buflen s).2.regs
            = (irq_read tps now t2n s.regs s.ha.f_pos buflen).2.2
        ∧ (read_on_b tps now t2n blen2 (read_on_a tps now t2n buflen s).2).1
            = (irq_read tps now t2n
                ((irq_read tps now t2n s.regs s.ha.f_pos buflen).2.2)
                s.hb.f_pos blen2).1) :=
  ⟨fun _ => rfl, fun _ => ⟨rfl, rfl, rfl, rfl⟩⟩

end IrqProcfs
